import Mathlib

/-!
Shallow embedding of src/vm/boostenv/main/boostenv.cc (Mozart2 boost
environment): the BoostVM isolate driver (scheduling loop, stream/port,
termination) and the BoostEnvironment registry (id allocation, lookup,
listing, kill), together with the URL percent-decoder of the default boot
loader.  Machine values carried by streams are abstracted as natural
numbers; stream cell references are abstracted as natural-number tokens.
All definitions are executable and follow the C++ control flow of the
corresponding functions line by line.
-/

namespace BoostEnv

/-- The directive returned by one interpreter step, boostenv.cc lines 71-73:
VirtualMachine::recNeverInvokeAgain, recInvokeAgainNow, recInvokeAgainLater. -/
inductive Invoke where
  | recNeverInvokeAgain
  | recInvokeAgainNow
  | recInvokeAgainLater
  deriving DecidableEq, Repr

/-- A deferred event sitting in a BoostVM deferred-event queue
(_vmEventsCallbacks).  The closures actually posted in boostenv.cc are:
the termination event posted by BoostVM::requestTermination (line 222),
the monitor notification posted by BoostVM::tellMonitors (lines 234-236),
and the serialized-buffer delivery posted by
BoostEnvironment::sendToVMPort (lines 397-399). -/
inductive VMEvent where
  | terminateEvent
  | receiveTuple (label : String) (arg : Int)
  | receiveBuffer (bytes : List Nat)
  deriving DecidableEq, Repr

/-- Errors raised synchronously by raiseError in boostenv.cc:
the second-call error of BoostVM::getStream (line 181) and the
unknown-identifier error of BoostEnvironment::getVM (line 341). -/
inductive VMError where
  | streamAlreadyAsked
  | invalidVMIdentifier (identifier : Int)
  deriving DecidableEq, Repr

/-- The per-isolate state of one BoostVM, projected onto the fields that
boostenv.cc reads and writes: identifier (line 41), _terminated (line 46),
_asyncIONodeCount (line 43), _headOfStream and _stream (line 59, as
optional reference tokens), the sequence of values appended to the stream
so far (the cells reachable from the original head), _vmEventsCallbacks,
_monitors, and _work (the keep-alive handle on the shared io_service,
line 49, present while not yet deleted). -/
structure VMState where
  identifier : Int
  terminated : Bool
  asyncIONodeCount : Int
  headOfStream : Option Nat
  stream : Option Nat
  streamContents : List Nat
  vmEventsCallbacks : List VMEvent
  monitors : List Int
  work : Bool
  deriving DecidableEq, Repr

/-- BoostVM::streamAsked, boostenv.cc lines 171-173:
true when _headOfStream is the null pointer. -/
def streamAsked (s : VMState) : Bool :=
  s.headOfStream.isNone

/-- BoostVM::portClosed, boostenv.cc lines 175-177:
true when _stream is the null pointer. -/
def portClosed (s : VMState) : Bool :=
  s.stream.isNone

/-- BoostVM::isRunning, boostenv.cc lines 217-219:
the negation of the one-shot _terminated flag. -/
def isRunning (s : VMState) : Bool :=
  !s.terminated

/-- The state of a fresh BoostVM as set up by the constructor,
boostenv.cc lines 36-63: _asyncIONodeCount zero, _terminated false, a live
keep-alive work handle, and _stream and _headOfStream both pointing at one
fresh unresolved read-only variable (here the token headRef). -/
def initBoostVM (identifier : Int) (headRef : Nat) : VMState :=
  { identifier := identifier
    terminated := false
    asyncIONodeCount := 0
    headOfStream := some headRef
    stream := some headRef
    streamContents := []
    vmEventsCallbacks := []
    monitors := []
    work := true }

/-- The shutdown decision taken under the queue lock in BoostVM::run,
boostenv.cc lines 99-100: break out of the loop (toward termination) when
not isRunning, or when the step returned recNeverInvokeAgain while
_asyncIONodeCount is zero and _vmEventsCallbacks is empty. -/
def shutdownDecision (running : Bool) (nextInvoke : Invoke)
    (asyncIONodeCount : Int) (vmEventsCallbacks : List VMEvent) : Bool :=
  !running || (decide (nextInvoke = Invoke.recNeverInvokeAgain) &&
      decide (asyncIONodeCount = 0) && vmEventsCallbacks.isEmpty)

/-- The preemption timer state: its current absolute deadline (expires_at,
in milliseconds) and whether an async_wait is pending. -/
structure TimerState where
  deadline : Nat
  armed : Bool
  deriving DecidableEq, Repr

/-- The interpreter-visible effects of the preemption handler: the last
reference time published via setReferenceTime and the cooperative
preemption-request flag raised by requestPreempt. -/
structure PreemptRecord where
  referenceTime : Option Nat
  preemptRequested : Bool
  deriving DecidableEq, Repr

/-- The preemption quantum: one millisecond, boostenv.cc lines 81 and 147. -/
def preemptionQuantum : Nat := 1

/-- BoostVM::onPreemptionTimerExpire, boostenv.cc lines 139-152.
If the wait was not aborted: publish the current reference time, raise the
preemption request flag, move the deadline to the previous deadline plus
one quantum (expires_at(expires_at() + millisec(1))), and re-arm. -/
def onPreemptionTimerExpire (aborted : Bool) (now : Nat)
    (timer : TimerState) (r : PreemptRecord) : TimerState × PreemptRecord :=
  if !aborted then
    ({ deadline := timer.deadline + preemptionQuantum, armed := true },
     { referenceTime := some now, preemptRequested := true })
  else
    (timer, r)

/-- BoostEnvironment::getVM, boostenv.cc lines 333-342: linear scan of the
vms collection for a matching identifier; raiseError with the invalid
identifier when the scan falls off the end. -/
def getVM (vms : List VMState) (identifier : Int) : Except VMError VMState :=
  match vms with
  | [] => Except.error (VMError.invalidVMIdentifier identifier)
  | vm :: rest =>
    if vm.identifier = identifier then Except.ok vm
    else getVM rest identifier

/-- The process-wide BoostEnvironment registry state, boostenv.cc lines
318-331: the vms collection (a forward list, newest first), the alive
counter _aliveVMs, and the id allocator _nextVMIdentifier (starting at 1). -/
structure EnvState where
  vms : List VMState
  aliveVMs : Int
  nextVMIdentifier : Int
  deriving DecidableEq, Repr

/-- The registry as set up by the BoostEnvironment constructor,
boostenv.cc lines 318-324: _nextVMIdentifier starts at 1, _aliveVMs at 0,
no isolates yet. -/
def initEnv : EnvState :=
  { vms := [], aliveVMs := 0, nextVMIdentifier := 1 }

/-- BoostEnvironment::addVM, boostenv.cc lines 326-331: construct a fresh
BoostVM with the next identifier, emplace it at the FRONT of the vms
collection, bump the allocator and the alive count. -/
def addVM (env : EnvState) (headRef : Nat) : EnvState :=
  { env with
    vms := initBoostVM env.nextVMIdentifier headRef :: env.vms
    nextVMIdentifier := env.nextVMIdentifier + 1
    aliveVMs := env.aliveVMs + 1 }

/-- BoostEnvironment::listVMs, boostenv.cc lines 344-352: start from the
empty list and walk the vms collection front to back, consing the
identifier of every isolate that isRunning. -/
def listVMs (vms : List VMState) : List Int :=
  vms.foldl (fun list vm => if isRunning vm then vm.identifier :: list else list) []

/-- BoostVM::getStream, boostenv.cc lines 179-187: if the stream was
already asked, raiseError; otherwise return (copy out) the head-of-stream
reference, bump _asyncIONodeCount, and null out _headOfStream. -/
def getStream (s : VMState) : Except VMError (Nat × VMState) :=
  if streamAsked s then
    Except.error VMError.streamAlreadyAsked
  else
    Except.ok (s.headOfStream.getD 0,
      { s with
        asyncIONodeCount := s.asyncIONodeCount + 1
        headOfStream := none })

/-- BoostVM::closeStream, boostenv.cc lines 189-196: only when the stream
was asked and the port is not yet closed, decrement _asyncIONodeCount,
bind nil to the open tail (sealing the sequence), and null out _stream. -/
def closeStream (s : VMState) : VMState :=
  if streamAsked s && !portClosed s then
    { s with
      asyncIONodeCount := s.asyncIONodeCount - 1
      stream := none }
  else s

/-- BoostVM::receiveOnVMPort (UnstableNode overload), boostenv.cc lines
198-201: if the port is not closed, resolve the open tail to a new cell
holding the value (sendToReadOnlyStream), extending the visible sequence. -/
def receiveOnVMPort (s : VMState) (value : Nat) : VMState :=
  if !portClosed s then
    { s with streamContents := s.streamContents ++ [value] }
  else s

/-- BoostVM::receiveOnVMPort (byte-buffer overload), boostenv.cc lines
203-215: if the port is closed, free the buffer and return with no other
effect; otherwise unpickle the buffer (decoder bootUnpickle, an external
collaborator passed here as a parameter) and append the decoded value. -/
def receiveOnVMPortBuffer (bootUnpickle : List Nat → Nat)
    (s : VMState) (buffer : List Nat) : VMState :=
  if portClosed s then s
  else { s with streamContents := s.streamContents ++ [bootUnpickle buffer] }

/-- Modelled from the spec: BoostVM::postVMEvent is declared in boostenv.hh
and its body is not part of src/.  Per spec sections 3 and 4.3 it enqueues
a deferred event at the back of the target isolate deferred-event queue
(FIFO) and signals the wake condition. -/
def postVMEvent (s : VMState) (e : VMEvent) : VMState :=
  { s with vmEventsCallbacks := s.vmEventsCallbacks ++ [e] }

/-- BoostVM::requestTermination, boostenv.cc lines 221-223: post a deferred
event that will run terminate on the target isolate thread. -/
def requestTermination (s : VMState) : VMState :=
  postVMEvent s VMEvent.terminateEvent

/-- BoostVM::tellMonitors, boostenv.cc lines 230-238: for every vm in
_monitors, post (via postVMEvent) into that monitor a deferred event
delivering the tuple terminated(identifier) on the monitor port.  The
outbox lists the posts in monitor-list order as pairs of target identifier
and event. -/
def tellMonitors (s : VMState) : List (Int × VMEvent) :=
  s.monitors.map fun m =>
    (m, VMEvent.receiveTuple "terminated" s.identifier)

/-- BoostVM::terminate, boostenv.cc lines 240-247: if the one-shot
_terminated flag is not yet set, set it, run closeStream, run tellMonitors,
and delete the _work keep-alive handle; otherwise do nothing.  Returns the
new state of this isolate together with the outbox of events posted to the
monitors queues. -/
def terminate (s : VMState) : VMState × List (Int × VMEvent) :=
  if !s.terminated then
    let s1 := closeStream { s with terminated := true }
    ({ s1 with work := false }, tellMonitors s1)
  else
    (s, [])

/-- BoostEnvironment::killVM, boostenv.cc lines 354-361: if the target
isolate isRunning, post the termination event via requestTermination and
decrement _aliveVMs; when the decremented count is zero, exit the process
with the given code (the third component carries the exit code when the
process exits).  A non-running target is left untouched. -/
def killVM (target : VMState) (aliveVMs : Int) (exitCode : Int) :
    VMState × Int × Option Int :=
  if isRunning target then
    let target1 := requestTermination target
    let alive1 := aliveVMs - 1
    if alive1 = 0 then (target1, alive1, some exitCode)
    else (target1, alive1, none)
  else
    (target, aliveVMs, none)

/-- BoostEnvironment::sendToVMPort, boostenv.cc lines 380-400: if the
target port is already closed, return with no effect; otherwise pickle the
value on the sender thread (encoder picklePack, an external collaborator
passed as a parameter) into a byte buffer and post a deferred
receiveOnVMPort delivery of that buffer into the target queue. -/
def sendToVMPort (picklePack : Nat → List Nat)
    (target : VMState) (value : Nat) : VMState :=
  if portClosed target then target
  else postVMEvent target (VMEvent.receiveBuffer (picklePack value))

/-- The result of the drain phase of BoostVM::run, boostenv.cc lines
106-112: the state after running the queued jobs, the jobs that ran in
order, and the directive left in nextInvoke. -/
structure DrainResult (σ : Type) where
  state : σ
  executed : List VMEvent
  nextInvoke : Invoke
  deriving Repr

/-- The drain loop of BoostVM::run, boostenv.cc lines 106-112: while
_vmEventsCallbacks is nonempty, run the front job, pop it, and set
nextInvoke to recInvokeAgainNow.  The effect of one job on the isolate is
abstracted as exec (none of the closures posted in boostenv.cc re-enqueues
into the queue of the isolate that is draining it). -/
def drainQueue {σ : Type} (exec : VMEvent → σ → σ) :
    σ → List VMEvent → Invoke → DrainResult σ
  | s, [], nextInvoke => { state := s, executed := [], nextInvoke := nextInvoke }
  | s, e :: rest, _ =>
    let r := drainQueue exec (exec e s) rest Invoke.recInvokeAgainNow
    { state := r.state, executed := e :: r.executed, nextInvoke := r.nextInvoke }

/-- What BoostVM::run does after the drain, boostenv.cc lines 114-129:
nothing (loop immediately) when nextInvoke is recInvokeAgainNow; otherwise
block on the wake condition, first arming the alarm timer at the requested
deadline when nextInvoke is recInvokeAgainLater. -/
inductive WaitAction where
  | invokeAgainNow
  | waitNoAlarm
  | waitWithAlarm (deadline : Nat)
  deriving DecidableEq, Repr

/-- The wait decision of BoostVM::run, boostenv.cc lines 114-129, as a
function of the directive left after the drain and the deadline the
interpreter returned alongside recInvokeAgainLater. -/
def afterDrainAction (nextInvoke : Invoke) (deadline : Nat) : WaitAction :=
  if nextInvoke = Invoke.recInvokeAgainNow then
    WaitAction.invokeAgainNow
  else if nextInvoke = Invoke.recInvokeAgainLater then
    WaitAction.waitWithAlarm deadline
  else
    WaitAction.waitNoAlarm

/-- hexDigitToValue, boostenv.cc lines 263-272, on character codes:
digits at or below the code of 9 map through subtracting the code of 0,
codes at or below the code of Z through subtracting the code of A minus
ten, and all others through subtracting the code of a minus ten.  As the
comment in the source says, values are meaningless for invalid digits. -/
def hexDigitToValue (digit : Nat) : Nat :=
  if digit ≤ 57 then digit - 48
  else if digit ≤ 90 then digit - 55
  else digit - 87

/-- The body of the decoding loop of decodeURL, boostenv.cc lines 285-294,
with i the loop index and decoded the accumulator.  Every character access
goes through an option-valued read so that an out-of-bounds access
surfaces as none: the percent branch is taken only when i+2 is still below
the length, in which case the two following characters are consumed and
one byte (v1 shifted left by 4, or-ed with v2, truncated to a char) is
emitted; otherwise the character is copied as is. -/
def decodeLoop (encoded : List Nat) (i : Nat) (decoded : List Nat) :
    Option (List Nat) :=
  if i < encoded.length then
    match encoded.get? i with
    | none => none
    | some c =>
      if c = 37 ∧ i + 2 < encoded.length then
        match encoded.get? (i + 1), encoded.get? (i + 2) with
        | some d1, some d2 =>
          decodeLoop encoded (i + 3)
            (decoded ++ [(hexDigitToValue d1 <<< 4 ||| hexDigitToValue d2) % 256])
        | _, _ => none
      else
        decodeLoop encoded (i + 1) (decoded ++ [c])
  else
    some decoded
  termination_by encoded.length - i
  decreasing_by
    · omega
    · omega

/-- decodeURL, boostenv.cc lines 274-297: fast path returning the input
unchanged when it contains no percent character, else the decoding loop
from index 0 with an empty accumulator. -/
def decodeURL (encoded : List Nat) : Option (List Nat) :=
  if !encoded.contains 37 then some encoded
  else decodeLoop encoded 0 []

/-- Specification-level restatement of the decoder as a structural
recursion on the character list, to be compared with the source-level
index loop decodeLoop: a percent followed by at least two characters
consumes them as a hex pair; any other character (including a percent too
close to the end) is copied literally. -/
def decodeURLSpec : List Nat → List Nat
  | [] => []
  | 37 :: d1 :: d2 :: rest =>
    ((hexDigitToValue d1 <<< 4 ||| hexDigitToValue d2) % 256) ::
      decodeURLSpec rest
  | c :: rest => c :: decodeURLSpec rest

/-- A character code standing for a well-formed hexadecimal digit. -/
def isHexDigit (c : Nat) : Bool :=
  (48 ≤ c && c ≤ 57) || (65 ≤ c && c ≤ 70) || (97 ≤ c && c ≤ 102)

/-- The numeric value of a well-formed hexadecimal digit character. -/
def hexVal (c : Nat) : Nat :=
  if 48 ≤ c ∧ c ≤ 57 then c - 48
  else if 65 ≤ c ∧ c ≤ 70 then c - 65 + 10
  else c - 97 + 10

/-! ## Theorems -/

/-- C2: At the shutdown-decision point of BoostVM::run, taken under the
queue lock after one interpreter step, the isolate heads for termination
if and only if it was externally marked not-running (the _terminated flag
is set), or the directive is recNeverInvokeAgain while the pending-async
counter is zero and the deferred-event queue is empty; in every other case
the decision is false and the loop continues. -/
theorem run_shutdownDecision_iff (s : VMState) (nextInvoke : Invoke) :
    shutdownDecision (isRunning s) nextInvoke s.asyncIONodeCount
        s.vmEventsCallbacks = true ↔
      (s.terminated = true ∨
        (nextInvoke = Invoke.recNeverInvokeAgain ∧
          s.asyncIONodeCount = 0 ∧ s.vmEventsCallbacks = [])) := by
  cases h : s.terminated <;>
    simp [shutdownDecision, isRunning, h, List.isEmpty_iff, and_assoc]

/-- C7: When the preemption timer fires before the step returns (the wait
was not aborted), the handler publishes the current reference time, raises
the cooperative preemption-request flag, and re-arms at its previous
deadline plus one quantum — a deadline computed from the previous
deadline, independent of the current time. -/
theorem onPreemptionTimerExpire_reschedules_from_previous_deadline
    (now : Nat) (timer : TimerState) (r : PreemptRecord) :
    onPreemptionTimerExpire false now timer r =
      ({ deadline := timer.deadline + preemptionQuantum, armed := true },
       { referenceTime := some now, preemptRequested := true }) := rfl

/-- C5: Appending to a closed Stream is a no-op in every entry point: the
direct value overload of receiveOnVMPort, the byte-buffer overload (the
buffer is discarded), and sendToVMPort at the messenger entry (it returns
before pickling or posting).  No cell is added and no error is raised (all
three functions are total and return the state unchanged).  On an open
stream, receiveOnVMPort resolves the open tail to a new cell holding the
value, extending the visible sequence by that value. -/
theorem append_on_closed_stream_noop :
    (∀ (s : VMState), portClosed s = true → ∀ (v : Nat),
        receiveOnVMPort s v = s) ∧
    (∀ (u : List Nat → Nat) (s : VMState), portClosed s = true →
        ∀ (b : List Nat), receiveOnVMPortBuffer u s b = s) ∧
    (∀ (p : Nat → List Nat) (t : VMState), portClosed t = true →
        ∀ (v : Nat), sendToVMPort p t v = t) ∧
    (∀ (s : VMState), portClosed s = false → ∀ (v : Nat),
        receiveOnVMPort s v =
          { s with streamContents := s.streamContents ++ [v] }) := by
  refine ⟨?_, ?_, ?_, ?_⟩
  · intro s h v; simp [receiveOnVMPort, h]
  · intro u s h b; simp [receiveOnVMPortBuffer, h]
  · intro p t h v; simp [sendToVMPort, h]
  · intro s h v; simp [receiveOnVMPort, h]

/-- Witness for C5 at concrete states: a closed port (stream none) drops
the value, an open port appends it. -/
theorem append_on_closed_stream_noop_witness :
    receiveOnVMPort { initBoostVM 1 0 with stream := none } 42 =
      { initBoostVM 1 0 with stream := none } ∧
    (receiveOnVMPort (initBoostVM 1 0) 42).streamContents = [42] := by
  have h := append_on_closed_stream_noop
  refine ⟨h.1 { initBoostVM 1 0 with stream := none } rfl 42, ?_⟩
  rw [h.2.2.2 (initBoostVM 1 0) rfl 42]
  rfl

/-- C6: BoostEnvironment::killVM on a running isolate posts exactly one
termination-triggering deferred event at the back of that isolate queue
and decrements the alive count; exactly when the decremented count is
zero, the process exits with the given exit code (and this decision reads
nothing but the count, so it never waits on any other isolate); on a
non-running isolate it changes neither the queue nor the count and never
exits. -/
theorem killVM_semantics (target : VMState) (alive exitCode : Int) :
    (isRunning target = true →
      killVM target alive exitCode =
        ({ target with vmEventsCallbacks :=
              target.vmEventsCallbacks ++ [VMEvent.terminateEvent] },
         alive - 1,
         if alive - 1 = 0 then some exitCode else none)) ∧
    (isRunning target = false →
      killVM target alive exitCode = (target, alive, none)) := by
  constructor
  · intro h
    simp only [killVM, h, if_true, requestTermination, postVMEvent]
    by_cases hz : alive - 1 = 0 <;> simp [hz]
  · intro h
    simp [killVM, h]

/-- Witness for C6: killing the last running isolate (alive count 1)
posts the termination event and exits with code 42; killing an
already-terminated isolate does nothing. -/
theorem killVM_semantics_witness :
    killVM (initBoostVM 1 0) 1 42 =
      ({ initBoostVM 1 0 with vmEventsCallbacks := [VMEvent.terminateEvent] },
       0, some 42) ∧
    killVM { initBoostVM 1 0 with terminated := true } 3 42 =
      ({ initBoostVM 1 0 with terminated := true }, 3, none) := by
  constructor
  · exact ((killVM_semantics (initBoostVM 1 0) 1 42).1 rfl).trans (by decide)
  · exact (killVM_semantics { initBoostVM 1 0 with terminated := true } 3 42).2 rfl

/-- C8: BoostEnvironment::getVM is a linear scan: it raises the
invalid-identifier error exactly when no isolate in the collection carries
the requested identifier; when some isolate does, it returns such an
isolate.  In particular, under the registry invariant that every stored
identifier is below the allocator value, looking up an identifier that was
never allocated (at or above the allocator) raises the error. -/
theorem getVM_unknown_isolate :
    (∀ (vms : List VMState) (identifier : Int),
      getVM vms identifier =
          Except.error (VMError.invalidVMIdentifier identifier) ↔
        ∀ vm ∈ vms, vm.identifier ≠ identifier) ∧
    (∀ (vms : List VMState) (identifier nextId : Int),
      (∀ vm ∈ vms, vm.identifier < nextId) → nextId ≤ identifier →
      getVM vms identifier =
        Except.error (VMError.invalidVMIdentifier identifier)) ∧
    (∀ (vms : List VMState) (identifier : Int),
      (∃ vm ∈ vms, vm.identifier = identifier) →
      ∃ vm, getVM vms identifier = Except.ok vm ∧
        vm ∈ vms ∧ vm.identifier = identifier) := by
  have key : ∀ (vms : List VMState) (identifier : Int),
      getVM vms identifier =
          Except.error (VMError.invalidVMIdentifier identifier) ↔
        ∀ vm ∈ vms, vm.identifier ≠ identifier := by
    intro vms identifier
    induction vms with
    | nil => simp [getVM]
    | cons vm rest ih =>
      by_cases h : vm.identifier = identifier
      · simp [getVM, h]
      · simp [getVM, h, ih]
  refine ⟨key, ?_, ?_⟩
  · intro vms identifier nextId hbound hge
    exact (key vms identifier).mpr fun vm hvm =>
      ne_of_lt (lt_of_lt_of_le (hbound vm hvm) hge)
  · intro vms identifier hex
    induction vms with
    | nil => simp at hex
    | cons vm rest ih =>
      by_cases h : vm.identifier = identifier
      · exact ⟨vm, by simp [getVM, h], by simp, h⟩
      · obtain ⟨w, hw, hwid⟩ := hex
        rcases List.mem_cons.mp hw with rfl | hwrest
        · exact absurd hwid h
        · obtain ⟨w1, hw1, hw1m, hw1id⟩ := ih ⟨w, hwrest, hwid⟩
          exact ⟨w1, by simp [getVM, h, hw1], List.mem_cons_of_mem vm hw1m, hw1id⟩

/-- Witness for C8: with one isolate of identifier 1 in the registry and
the allocator at 2, the never-allocated identifier 5 raises the
invalid-identifier error, and identifier 1 is found. -/
theorem getVM_unknown_isolate_witness :
    getVM [initBoostVM 1 0] 5 = Except.error (VMError.invalidVMIdentifier 5) ∧
    ∃ vm, getVM [initBoostVM 1 0] 1 = Except.ok vm ∧
      vm ∈ [initBoostVM 1 0] ∧ vm.identifier = 1 := by
  have h := getVM_unknown_isolate
  constructor
  · exact h.2.1 [initBoostVM 1 0] 5 2 (by decide) (by decide)
  · exact h.2.2 [initBoostVM 1 0] 1 ⟨initBoostVM 1 0, by simp, rfl⟩

/-- C4: The first call of BoostVM::getStream on a state whose head
reference is still available returns exactly that head reference, bumps
the pending-async counter by one, and sets the claimed flag (streamAsked
becomes true); from any state with the claimed flag set — in particular
the state just produced — getStream fails with the stream-already-asked
error and, returning no state, leaves the stream untouched; and the
granted head reference keeps seeing every value appended while the port
stays open (receiveOnVMPort extends the visible sequence). -/
theorem getStream_requestOnce_semantics (s : VMState) (r : Nat)
    (h : s.headOfStream = some r) :
    getStream s = Except.ok (r,
      { s with
        asyncIONodeCount := s.asyncIONodeCount + 1
        headOfStream := none }) ∧
    streamAsked { s with
        asyncIONodeCount := s.asyncIONodeCount + 1
        headOfStream := none } = true ∧
    (∀ t : VMState, streamAsked t = true →
      getStream t = Except.error VMError.streamAlreadyAsked) ∧
    (∀ t : VMState, portClosed t = false → ∀ v : Nat,
      (receiveOnVMPort t v).streamContents = t.streamContents ++ [v]) := by
  refine ⟨?_, rfl, ?_, ?_⟩
  · simp [getStream, streamAsked, h]
  · intro t ht; simp [getStream, ht]
  · intro t ht v; simp [receiveOnVMPort, ht]

/-- Witness for C4 on a fresh isolate: the first call returns the head
reference and bumps the counter to one, the second call on the resulting
state raises the stream-already-asked error, and a value appended
afterwards is visible. -/
theorem getStream_requestOnce_semantics_witness :
    getStream (initBoostVM 1 5) = Except.ok (5,
      { initBoostVM 1 5 with asyncIONodeCount := 1, headOfStream := none }) ∧
    getStream { initBoostVM 1 5 with asyncIONodeCount := 1, headOfStream := none } =
      Except.error VMError.streamAlreadyAsked ∧
    (receiveOnVMPort
        { initBoostVM 1 5 with asyncIONodeCount := 1, headOfStream := none }
        42).streamContents = [42] := by
  have h := getStream_requestOnce_semantics (initBoostVM 1 5) 5 rfl
  refine ⟨h.1.trans (by rfl), ?_, ?_⟩
  · exact h.2.2.1
      { initBoostVM 1 5 with asyncIONodeCount := 1, headOfStream := none } rfl
  · exact (h.2.2.2
      { initBoostVM 1 5 with asyncIONodeCount := 1, headOfStream := none }
      rfl 42).trans rfl

/-- closeStream never touches the _terminated flag. -/
theorem closeStream_terminated (s : VMState) :
    (closeStream s).terminated = s.terminated := by
  unfold closeStream; split <;> rfl

/-- closeStream never touches the monitor list. -/
theorem closeStream_monitors (s : VMState) :
    (closeStream s).monitors = s.monitors := by
  unfold closeStream; split <;> rfl

/-- closeStream never touches the identifier. -/
theorem closeStream_identifier (s : VMState) :
    (closeStream s).identifier = s.identifier := by
  unfold closeStream; split <;> rfl

/-- terminate on an already-terminated state does nothing and posts
nothing. -/
theorem terminate_of_terminated (t : VMState) (ht : t.terminated = true) :
    terminate t = (t, []) := by
  simp [terminate, ht]

/-- C1: BoostVM::terminate is guarded by the one-shot _terminated flag.
All calls run on the isolate own thread (directly at the end of
BoostVM::run or from a drained requestTermination event), so a racing
requestKill and a natural shutdown become two sequential calls: the first
call from a live state sets the flag (so Terminated is reached exactly on
that call), posts the deferred terminated(selfId) tuple into every monitor
queue exactly once, releases the keep-alive work handle, and closes the
stream when it is claimed and still open; the second call — and any call
on an already-terminated state — changes nothing and posts nothing. -/
theorem terminate_exactly_once (s : VMState) :
    terminate (terminate s).1 = ((terminate s).1, []) ∧
    ((terminate s).1).terminated = true ∧
    (s.terminated = false →
      (terminate s).2 = s.monitors.map
        (fun m => (m, VMEvent.receiveTuple "terminated" s.identifier)) ∧
      ((terminate s).1).work = false ∧
      (streamAsked s = true ∧ portClosed s = false →
        ((terminate s).1).stream = none ∧
        ((terminate s).1).asyncIONodeCount = s.asyncIONodeCount - 1)) ∧
    (s.terminated = true → terminate s = (s, [])) := by
  have hterm1 : ((terminate s).1).terminated = true := by
    cases h : s.terminated
    · simp [terminate, h, closeStream_terminated]
    · simp [terminate, h]
  have hof : terminate ((terminate s).1) = ((terminate s).1, []) :=
    terminate_of_terminated _ hterm1
  cases h : s.terminated
  · have e : terminate s =
        ({ closeStream { s with terminated := true } with work := false },
          tellMonitors (closeStream { s with terminated := true })) := by
      simp [terminate, h]
    refine ⟨hof, hterm1, fun _ => ⟨?_, ?_, ?_⟩, fun hc => absurd hc (by simp [h])⟩
    · rw [e]
      simp [tellMonitors, closeStream_monitors, closeStream_identifier]
    · rw [e]
    · intro hco
      have hask : streamAsked { s with terminated := true } = true := hco.1
      have hport : portClosed { s with terminated := true } = false := hco.2
      have ec : closeStream { s with terminated := true } =
          { s with
            terminated := true
            asyncIONodeCount := s.asyncIONodeCount - 1
            stream := none } := by
        simp [closeStream, hask, hport]
      rw [e, ec]
      exact ⟨rfl, rfl⟩
  · simp [terminate, h]

/-- Witness for C1 at a concrete live isolate with one monitor and a
claimed open stream: the first terminate posts the tuple once, releases
the work handle, closes the stream; the second terminate is the
identity with an empty outbox. -/
theorem terminate_exactly_once_witness :
    terminate (terminate { initBoostVM 1 0 with
        headOfStream := none, asyncIONodeCount := 1, monitors := [7] }).1 =
      ((terminate { initBoostVM 1 0 with
        headOfStream := none, asyncIONodeCount := 1, monitors := [7] }).1, []) ∧
    (terminate { initBoostVM 1 0 with
        headOfStream := none, asyncIONodeCount := 1, monitors := [7] }).2 =
      [(7, VMEvent.receiveTuple "terminated" 1)] ∧
    ((terminate { initBoostVM 1 0 with
        headOfStream := none, asyncIONodeCount := 1, monitors := [7] }).1).stream
      = none := by
  have h := terminate_exactly_once { initBoostVM 1 0 with
    headOfStream := none, asyncIONodeCount := 1, monitors := [7] }
  refine ⟨h.1, ?_, ?_⟩
  · exact ((h.2.2.1 rfl).1).trans rfl
  · exact ((h.2.2.1 rfl).2.2 ⟨rfl, rfl⟩).1

/-- C3: The drain phase of BoostVM::run dequeues and runs the deferred
events in FIFO order until the queue is empty (the executed trace is the
queue itself and the resulting state is the left fold of the jobs over the
entering state), the directive left behind is the step directive when the
queue was empty and recInvokeAgainNow as soon as at least one job ran, and
therefore in an iteration where a job ran the post-drain action neither
arms the alarm timer nor blocks on the wake condition: it re-steps
immediately. -/
theorem drain_fifo_forces_invokeAgainNow {σ : Type} (exec : VMEvent → σ → σ)
    (s : σ) (queue : List VMEvent) (nextInvoke : Invoke) (deadline : Nat) :
    (drainQueue exec s queue nextInvoke).executed = queue ∧
    (drainQueue exec s queue nextInvoke).state =
      queue.foldl (fun st e => exec e st) s ∧
    (drainQueue exec s queue nextInvoke).nextInvoke =
      (if queue.isEmpty then nextInvoke else Invoke.recInvokeAgainNow) ∧
    (queue ≠ [] →
      afterDrainAction (drainQueue exec s queue nextInvoke).nextInvoke deadline =
        WaitAction.invokeAgainNow) := by
  induction queue generalizing s nextInvoke with
  | nil => simp [drainQueue]
  | cons e rest ih =>
    obtain ⟨h1, h2, h3, _⟩ := ih (exec e s) Invoke.recInvokeAgainNow
    refine ⟨?_, ?_, ?_, ?_⟩
    · simp [drainQueue, h1]
    · simp [drainQueue, h2]
    · simp only [drainQueue, h3]
      by_cases hr : rest.isEmpty <;> simp [hr]
    · intro _
      simp only [drainQueue, h3]
      by_cases hr : rest.isEmpty <;> simp [hr, afterDrainAction]

/-- Witness for C3: draining a one-event queue after a recNeverInvokeAgain
step leaves the directive at recInvokeAgainNow and the post-drain action
loops immediately instead of arming the alarm or waiting. -/
theorem drain_fifo_forces_invokeAgainNow_witness :
    (drainQueue (fun _ n => n + 1) (0 : Nat) [VMEvent.terminateEvent]
        Invoke.recNeverInvokeAgain).executed = [VMEvent.terminateEvent] ∧
    afterDrainAction
      (drainQueue (fun _ n => n + 1) (0 : Nat) [VMEvent.terminateEvent]
        Invoke.recNeverInvokeAgain).nextInvoke 5 =
      WaitAction.invokeAgainNow := by
  have h := drain_fifo_forces_invokeAgainNow (fun _ n => n + 1) (0 : Nat)
    [VMEvent.terminateEvent] Invoke.recNeverInvokeAgain 5
  exact ⟨h.1, h.2.2.2 (by simp)⟩

/-- Unfolding the listVMs fold: consing the running identifiers during a
front-to-back traversal builds the reverse of the filtered identifier
list, on top of the accumulator. -/
theorem listVMs_foldl_eq (l : List VMState) (acc : List Int) :
    l.foldl (fun list vm => if isRunning vm then vm.identifier :: list else list)
        acc
      = ((l.filter isRunning).map (fun vm => vm.identifier)).reverse ++ acc := by
  induction l generalizing acc with
  | nil => simp
  | cons vm rest ih =>
    by_cases h : isRunning vm = true <;>
      simp [List.foldl_cons, h, ih, List.filter_cons]

/-- C10: listVMs returns exactly the identifiers of the isolates whose
one-shot termination flag is not yet set, and in ascending identifier
order, which is creation order: addVM inserts at the front of the
collection, so under the registry invariant that identifiers strictly
decrease front to back, the cons-built traversal reverses them into
ascending order. -/
theorem listVMs_running_ascending (vms : List VMState)
    (hsorted : vms.Pairwise (fun a b => b.identifier < a.identifier)) :
    listVMs vms = ((vms.filter isRunning).map (fun vm => vm.identifier)).reverse ∧
    (∀ i : Int, i ∈ listVMs vms ↔
      ∃ vm ∈ vms, vm.terminated = false ∧ vm.identifier = i) ∧
    (listVMs vms).Pairwise (fun a b => a < b) := by
  have he : listVMs vms =
      ((vms.filter isRunning).map (fun vm => vm.identifier)).reverse := by
    unfold listVMs
    rw [listVMs_foldl_eq]
    simp
  refine ⟨he, ?_, ?_⟩
  · intro i
    rw [he]
    simp only [List.mem_reverse, List.mem_map, List.mem_filter, isRunning,
      Bool.not_eq_true']
    constructor
    · rintro ⟨vm, ⟨hmem, hrun⟩, hid⟩
      exact ⟨vm, hmem, hrun, hid⟩
    · rintro ⟨vm, hmem, hrun, hid⟩
      exact ⟨vm, ⟨hmem, hrun⟩, hid⟩
  · rw [he, List.pairwise_reverse, List.pairwise_map]
    exact hsorted.filter isRunning

/-- Witness for C10: a registry holding isolates with identifiers 3, 2, 1
front to back (3 created last and already terminated) lists exactly the
running ones as the ascending list 1, 2. -/
theorem listVMs_running_ascending_witness :
    listVMs [{ initBoostVM 3 0 with terminated := true },
      initBoostVM 2 0, initBoostVM 1 0] = [1, 2] ∧
    (listVMs [{ initBoostVM 3 0 with terminated := true },
      initBoostVM 2 0, initBoostVM 1 0]).Pairwise (fun a b => a < b) := by
  have h := listVMs_running_ascending
    [{ initBoostVM 3 0 with terminated := true },
      initBoostVM 2 0, initBoostVM 1 0]
    (by simp [List.pairwise_cons, initBoostVM])
  exact ⟨h.1.trans (by decide), h.2.2⟩

/-- A character other than the percent sign is copied as is by the
specification-level decoder. -/
theorem decodeURLSpec_cons_of_ne (c : Nat) (h : c ≠ 37) (rest : List Nat) :
    decodeURLSpec (c :: rest) = c :: decodeURLSpec rest := by
  match rest with
  | [] => simp [decodeURLSpec, h]
  | [d] => simp [decodeURLSpec, h]
  | d1 :: d2 :: r => simp [decodeURLSpec, h]

/-- The specification-level decoder keeps a one-character list intact. -/
theorem decodeURLSpec_single (c : Nat) : decodeURLSpec [c] = [c] := by
  by_cases hc : c = 37
  · subst hc; simp [decodeURLSpec]
  · rw [decodeURLSpec_cons_of_ne c hc]; rfl

/-- The specification-level decoder keeps any list of at most two
characters intact: nothing can be decoded that close to the end. -/
theorem decodeURLSpec_short (l : List Nat) (h : l.length ≤ 2) :
    decodeURLSpec l = l := by
  match l with
  | [] => rfl
  | [c] => exact decodeURLSpec_single c
  | [c, d] =>
    by_cases hc : c = 37
    · subst hc
      have e : decodeURLSpec [37, d] = 37 :: decodeURLSpec [d] := by
        simp [decodeURLSpec]
      rw [e, decodeURLSpec_single d]
    · rw [decodeURLSpec_cons_of_ne c hc, decodeURLSpec_single d]
  | c :: d :: e :: r => simp at h

/-- A percent sign followed by fewer than two characters is copied
literally by the specification-level decoder. -/
theorem decodeURLSpec_percent_short (rest : List Nat) (h : rest.length ≤ 1) :
    decodeURLSpec (37 :: rest) = 37 :: decodeURLSpec rest := by
  match rest with
  | [] => simp [decodeURLSpec]
  | [d] => simp [decodeURLSpec]
  | a :: b :: r => simp at h

/-- A percent sign followed by at least two characters consumes them as a
hex pair in the specification-level decoder. -/
theorem decodeURLSpec_hexpair (d1 d2 : Nat) (r : List Nat) :
    decodeURLSpec (37 :: d1 :: d2 :: r) =
      ((hexDigitToValue d1 <<< 4 ||| hexDigitToValue d2) % 256) ::
        decodeURLSpec r := by
  simp [decodeURLSpec]

/-- Shifting a nibble left by four and or-ing a second nibble is the same
as sixteen times the first plus the second. -/
theorem hexpair_lt : ∀ a < 16, ∀ b < 16, a <<< 4 ||| b = 16 * a + b := by
  decide

/-- On well-formed hexadecimal digit characters, the source conversion
hexDigitToValue agrees with the mathematical digit value, which is below
sixteen. -/
theorem hexDigit_value (c : Nat) (h : isHexDigit c = true) :
    hexDigitToValue c = hexVal c ∧ hexVal c < 16 := by
  simp only [isHexDigit, Bool.or_eq_true, Bool.and_eq_true,
    decide_eq_true_eq] at h
  rcases h with (⟨h1, h2⟩ | ⟨h1, h2⟩) | ⟨h1, h2⟩
  · have e1 : hexDigitToValue c = c - 48 := by
      unfold hexDigitToValue; rw [if_pos (by omega : c ≤ 57)]
    have e2 : hexVal c = c - 48 := by
      unfold hexVal; rw [if_pos ⟨h1, h2⟩]
    rw [e1, e2]; omega
  · have e1 : hexDigitToValue c = c - 55 := by
      unfold hexDigitToValue
      rw [if_neg (by omega : ¬ c ≤ 57), if_pos (by omega : c ≤ 90)]
    have e2 : hexVal c = c - 65 + 10 := by
      unfold hexVal
      rw [if_neg (by omega : ¬ (48 ≤ c ∧ c ≤ 57)), if_pos ⟨h1, h2⟩]
    rw [e1, e2]; omega
  · have e1 : hexDigitToValue c = c - 87 := by
      unfold hexDigitToValue
      rw [if_neg (by omega : ¬ c ≤ 57), if_neg (by omega : ¬ c ≤ 90)]
    have e2 : hexVal c = c - 97 + 10 := by
      unfold hexVal
      rw [if_neg (by omega : ¬ (48 ≤ c ∧ c ≤ 57)),
        if_neg (by omega : ¬ (65 ≤ c ∧ c ≤ 70))]
    rw [e1, e2]; omega

/-- The source-level index loop agrees with the specification-level
structural recursion from any index and accumulator; in particular every
character access of the loop is in bounds (the result is never none). -/
theorem decodeLoop_eq_spec (encoded : List Nat) (i : Nat) (acc : List Nat) :
    decodeLoop encoded i acc = some (acc ++ decodeURLSpec (encoded.drop i)) := by
  have main : ∀ (n i : Nat) (acc : List Nat), encoded.length - i ≤ n →
      decodeLoop encoded i acc =
        some (acc ++ decodeURLSpec (encoded.drop i)) := by
    intro n
    induction n with
    | zero =>
      intro i acc h
      have hge : encoded.length ≤ i := by omega
      rw [decodeLoop]
      simp [Nat.not_lt.mpr hge, List.drop_eq_nil_of_le hge, decodeURLSpec]
    | succ n ih =>
      intro i acc h
      by_cases hi : i < encoded.length
      · have hc : encoded.get? i = some encoded[i] := by
          rw [List.get?_eq_getElem?]; exact List.getElem?_eq_getElem hi
        rw [decodeLoop]
        rw [if_pos hi]
        simp only [hc]
        by_cases hpc : encoded[i] = 37 ∧ i + 2 < encoded.length
        · obtain ⟨hc37, hlen⟩ := hpc
          have h1 : i + 1 < encoded.length := by omega
          have hd1 : encoded.get? (i + 1) = some encoded[i + 1] := by
            rw [List.get?_eq_getElem?]; exact List.getElem?_eq_getElem h1
          have hd2 : encoded.get? (i + 2) = some encoded[i + 2] := by
            rw [List.get?_eq_getElem?]; exact List.getElem?_eq_getElem hlen
          rw [if_pos ⟨hc37, hlen⟩]
          simp only [hd1, hd2]
          rw [ih (i + 3) _ (by omega)]
          rw [List.drop_eq_getElem_cons hi, List.drop_eq_getElem_cons h1,
            List.drop_eq_getElem_cons hlen, hc37, decodeURLSpec_hexpair]
          simp
        · rw [if_neg hpc]
          rw [ih (i + 1) _ (by omega)]
          rw [List.drop_eq_getElem_cons hi]
          by_cases hc37 : encoded[i] = 37
          · have hshort : (encoded.drop (i + 1)).length ≤ 1 := by
              rw [List.length_drop]
              have : ¬ i + 2 < encoded.length := fun hl => hpc ⟨hc37, hl⟩
              omega
            rw [hc37, decodeURLSpec_percent_short (encoded.drop (i + 1)) hshort]
            simp
          · rw [decodeURLSpec_cons_of_ne _ hc37]
            simp
      · have hge := Nat.not_lt.mp hi
        rw [decodeLoop]
        simp [hi, List.drop_eq_nil_of_le hge, decodeURLSpec]
  exact main (encoded.length - i) i acc le_rfl

/-- A list without the percent character decodes to itself at the
specification level. -/
theorem decodeURLSpec_no_percent (l : List Nat) (hl : l.contains 37 = false) :
    decodeURLSpec l = l := by
  induction l with
  | nil => rfl
  | cons c rest ih =>
    rw [List.contains_cons] at hl
    simp only [Bool.or_eq_false_iff, beq_eq_false_iff_ne, ne_eq] at hl
    rw [decodeURLSpec_cons_of_ne c (fun h => hl.1 h.symm) rest, ih hl.2]

/-- C9: The percent-decoder of the default boot loader is total and never
reads past the end of its input: on every input the index loop returns
some result — it agrees with the structural recursion decodeURLSpec — so
no out-of-bounds access occurs; an input with no percent character is
returned unchanged; once fewer than three characters remain (so a percent
there is not followed by at least two further characters) the loop copies
the rest literally rather than decoding; and a well-formed escape of a
percent and two hex digits is replaced by the single byte it encodes,
sixteen times the first digit value plus the second, which is below 256. -/
theorem decodeURL_total_and_correct :
    (∀ encoded : List Nat, decodeURL encoded = some (decodeURLSpec encoded)) ∧
    (∀ encoded : List Nat, encoded.contains 37 = false →
      decodeURL encoded = some encoded) ∧
    (∀ (encoded : List Nat) (i : Nat) (acc : List Nat),
      encoded.length ≤ i + 2 →
      decodeLoop encoded i acc = some (acc ++ encoded.drop i)) ∧
    (∀ d1 d2 : Nat, isHexDigit d1 = true → isHexDigit d2 = true →
      ∀ rest : List Nat,
      decodeURLSpec (37 :: d1 :: d2 :: rest) =
        (16 * hexVal d1 + hexVal d2) :: decodeURLSpec rest ∧
      16 * hexVal d1 + hexVal d2 < 256) := by
  refine ⟨?_, ?_, ?_, ?_⟩
  · intro encoded
    unfold decodeURL
    by_cases hc : encoded.contains 37 = true
    · rw [if_neg (by rw [hc]; decide), decodeLoop_eq_spec]
      simp
    · have hcf : encoded.contains 37 = false := by simpa using hc
      rw [if_pos (by rw [hcf]; rfl),
        decodeURLSpec_no_percent encoded hcf]
  · intro encoded h
    unfold decodeURL
    rw [if_pos (by rw [h]; rfl)]
  · intro encoded i acc hle
    rw [decodeLoop_eq_spec]
    have hs : (encoded.drop i).length ≤ 2 := by rw [List.length_drop]; omega
    rw [decodeURLSpec_short _ hs]
  · intro d1 d2 h1 h2 rest
    obtain ⟨e1, l1⟩ := hexDigit_value d1 h1
    obtain ⟨e2, l2⟩ := hexDigit_value d2 h2
    have hb : hexDigitToValue d1 <<< 4 ||| hexDigitToValue d2 =
        16 * hexVal d1 + hexVal d2 := by
      rw [e1, e2]; exact hexpair_lt _ l1 _ l2
    constructor
    · rw [decodeURLSpec_hexpair, hb, Nat.mod_eq_of_lt (by omega)]
    · omega

/-- Witness for C9 on concrete inputs: the escape of 4 and 1 decodes to
the byte 65, a percent-free input is returned unchanged, and a trailing
percent (one character from the end) is copied literally. -/
theorem decodeURL_total_and_correct_witness :
    decodeURL [37, 52, 49] = some [65] ∧
    decodeURL [104, 105] = some [104, 105] ∧
    decodeLoop [97, 37] 0 [] = some [97, 37] ∧
    decodeURLSpec [37, 52, 49] = [65] := by
  have h := decodeURL_total_and_correct
  refine ⟨?_, ?_, ?_, ?_⟩
  · exact (h.1 [37, 52, 49]).trans (by decide)
  · exact h.2.1 [104, 105] (by decide)
  · exact (h.2.2.1 [97, 37] 0 [] (by decide)).trans (by decide)
  · exact ((h.2.2.2 52 49 (by decide) (by decide) []).1).trans (by decide)

end BoostEnv
